import Mathlib

/-!
Shallow embedding of the Azure cost-monitoring function
(`TimerFunction/__init__.py` and `postgres_helper.py`): the cost-response
normalizer, the metric policy table, the metric statistics reducer, the
low-usage classifier, the previous-month window computation, the
persistence insert statements and the orchestrator's storage phase.
Machine floats are idealized as rationals; Python dynamic values are the
inductive `PyVal`.
-/

/-- A dynamic Python value as it appears in cost-response rows:
`None`, a string, a number (float/int idealized as `ℚ`) or a bool. -/
inductive PyVal where
  | none : PyVal
  | str : String → PyVal
  | num : ℚ → PyVal
  | bool : Bool → PyVal
deriving DecidableEq

/-- Python truthiness of a `PyVal` (`if row[0]:` etc.). -/
def PyVal.truthy : PyVal → Bool
  | .none => false
  | .str s => !s.isEmpty
  | .num q => q != 0
  | .bool b => b

/-- Python `str()` of a `PyVal`; the numeric rendering is a decimal model,
no claim depends on its exact spelling. -/
def PyVal.pyStr : PyVal → String
  | .none => "None"
  | .str s => s
  | .num q => toString q
  | .bool b => if b then "True" else "False"

/-- Digits to a natural number (helper for the float-literal parser). -/
def digitsToNat (l : List Char) : Nat :=
  l.foldl (fun a c => a * 10 + (c.toNat - 48)) 0

/-- Whitespace stripped by Python `float()` before parsing. -/
def isPySpace (c : Char) : Bool :=
  c = ' ' || c = '\t' || c = '\n' || c = '\r'

/-- Strip leading and trailing whitespace from a character list. -/
def stripSpaces (l : List Char) : List Char :=
  ((l.dropWhile isPySpace).reverse.dropWhile isPySpace).reverse

/-- Python `float(s)` on a string, modeled for plain decimal literals:
optional sign, integer digits, optional fraction.  Returns `Option.none`
when the string is not a numeric literal (Python raises `ValueError`). -/
def parseFloat? (s : String) : Option ℚ :=
  let cs := stripSpaces s.toList
  let signed : ℚ × List Char :=
    match cs with
    | '-' :: t => (-1, t)
    | '+' :: t => (1, t)
    | _ => (1, cs)
  let intPart := signed.2.takeWhile Char.isDigit
  let rest := signed.2.dropWhile Char.isDigit
  match rest with
  | [] =>
      if intPart.isEmpty then Option.none
      else Option.some (signed.1 * (digitsToNat intPart : ℚ))
  | '.' :: frac =>
      if frac.all Char.isDigit && (!intPart.isEmpty || !frac.isEmpty) then
        Option.some (signed.1 *
          ((digitsToNat intPart : ℚ) + (digitsToNat frac : ℚ) / (10 ^ frac.length)))
      else Option.none
  | _ => Option.none

/-- Python `float(v)` on a dynamic value; `Except.error` models the raised
`TypeError`/`ValueError`. -/
def pyFloat : PyVal → Except Unit ℚ
  | .num q => .ok q
  | .bool b => .ok (if b then 1 else 0)
  | .str s =>
      match parseFloat? s with
      | Option.some q => .ok q
      | Option.none => .error ()
  | .none => .error ()

/-- `float(row[-1]) if row[-1] else 0.0` from `process_cost_response`. -/
def costOf (v : PyVal) : Except Unit ℚ :=
  if v.truthy then pyFloat v else .ok 0

/-- `str(row[k]) if row[k] else None` (the date column). -/
def strOrNone (v : PyVal) : Option String :=
  if v.truthy then Option.some v.pyStr else Option.none

/-- `str(row[k]) if row[k] else 'Unknown'` (the dimension columns). -/
def strOrUnknown (v : PyVal) : String :=
  if v.truthy then v.pyStr else "Unknown"

/-- A normalized cost record as built by `process_cost_response`: a
single-dimension record `{date, dimension, cost_amount}` or a
two-dimension record `{date, region_name, service_name, cost_amount}`. -/
inductive CostRow where
  | single (date : Option String) (dimension : String) (cost_amount : ℚ) : CostRow
  | double (date : Option String) (region_name service_name : String)
      (cost_amount : ℚ) : CostRow
deriving DecidableEq

/-- The `cost_amount` field of a normalized record. -/
def CostRow.cost : CostRow → ℚ
  | .single _ _ c => c
  | .double _ _ _ c => c

/-- The `date` field of a normalized record. -/
def CostRow.date : CostRow → Option String
  | .single d _ _ => d
  | .double d _ _ _ => d

/-- The body of the `for row in response.rows` loop of
`process_cost_response`: a row of length `< 3` produces nothing, a row of
length `3` produces a single-dimension record, a row of length `≥ 4` a
two-dimension record; a failing `float` conversion raises (`Except.error`). -/
def processRow (row : List PyVal) : Except Unit (Option CostRow) :=
  if row.length ≥ 3 then
    match costOf (row.getLastD .none) with
    | .error e => .error e
    | .ok cost_amount =>
        if row.length = 3 then
          .ok (Option.some (.single (strOrNone (row.getD 0 .none))
            (strOrUnknown (row.getD 1 .none)) cost_amount))
        else
          .ok (Option.some (.double (strOrNone (row.getD 0 .none))
            (strOrUnknown (row.getD 1 .none)) (strOrUnknown (row.getD 2 .none)) cost_amount))
  else .ok Option.none

/-- The row loop with its surrounding `try`/`except`: an exception from any
row aborts the loop and the function returns the records accumulated so
far (`rows` is returned after the `except` logs the error). -/
def processRows : List (List PyVal) → List CostRow → List CostRow
  | [], acc => acc
  | r :: rs, acc =>
      match processRow r with
      | .error _ => acc
      | .ok Option.none => processRows rs acc
      | .ok (Option.some cr) => processRows rs (acc ++ [cr])

/-- `process_cost_response`: `response` is `Option.none` when the response
object has no truthy `rows` attribute. -/
def process_cost_response (response : Option (List (List PyVal))) : List CostRow :=
  match response with
  | Option.none => []
  | Option.some rows => if rows.isEmpty then [] else processRows rows []

/-- One entry of the metric policy table:
`{'metric': ..., 'stat': ..., 'threshold': ..., 'unit': ...}`. -/
structure MetricConfig where
  metric : String
  stat : String
  threshold : ℚ
  unit : String
deriving DecidableEq

/-- `get_primary_metrics_for_service`: the static per-resource-type metric
policy table, with the two-entry default for unknown types. -/
def get_primary_metrics_for_service (resource_type : String) : List MetricConfig :=
  if resource_type = "Microsoft.Compute/virtualMachines" then
    [⟨"Percentage CPU", "Average", 10, "Percent"⟩,
     ⟨"Network In", "Average", 1000000, "Bytes"⟩,
     ⟨"Disk Read Bytes", "Average", 1000000, "Bytes"⟩]
  else if resource_type = "Microsoft.DBforPostgreSQL/servers" then
    [⟨"cpu_percent", "Average", 15, "Percent"⟩,
     ⟨"connections_active", "Average", 5, "Count"⟩,
     ⟨"io_consumption_percent", "Average", 10, "Percent"⟩]
  else if resource_type = "Microsoft.Storage/storageAccounts" then
    [⟨"Transactions", "Sum", 1000, "Count"⟩,
     ⟨"UsedCapacity", "Average", 1000000000, "Bytes"⟩]
  else if resource_type = "Microsoft.Web/sites" then
    [⟨"HttpRequests", "Sum", 100, "Count"⟩,
     ⟨"AverageResponseTime", "Average", 1000, "Milliseconds"⟩]
  else if resource_type = "Microsoft.ContainerService/managedClusters" then
    [⟨"cpuUsageNanoCores", "Average", 1000000000, "NanoCores"⟩,
     ⟨"memoryWorkingSetBytes", "Average", 1000000000, "Bytes"⟩]
  else if resource_type = "Microsoft.Network/loadBalancers" then
    [⟨"ByteCount", "Sum", 1000000, "Bytes"⟩,
     ⟨"PacketCount", "Sum", 1000, "Count"⟩]
  else
    [⟨"Requests", "Sum", 10, "Count"⟩,
     ⟨"Errors", "Sum", 1, "Count"⟩]

/-- `MAX_METRICS_PER_RESOURCE` from the configuration section. -/
def MAX_METRICS_PER_RESOURCE : Nat := 5

/-- `MAX_RESOURCES_TO_ANALYZE` from the configuration section. -/
def MAX_RESOURCES_TO_ANALYZE : Nat := 100

/-- A discovered resource dict as built by `get_all_resources`. -/
structure AzureResource where
  id : String
  name : String
  type : String
  location : String
  resource_group : String
deriving DecidableEq

/-- A low-usage finding dict as appended by
`get_comprehensive_low_usage_resources`. -/
structure LowUsageFinding where
  service : String
  resource_id : String
  resource_name : String
  resource_region : String
  metric : String
  average_usage : ℚ
  threshold : ℚ
  unit : String
  stat_type : String
deriving DecidableEq

/-- `resource_type.split('/')[-1] if '/' in resource_type else resource_type`. -/
def serviceShortName (resource_type : String) : String :=
  if resource_type.contains '/' then
    (resource_type.splitOn "/").getLastD resource_type
  else resource_type

/-- Python `round` on a rational: round half to even (banker's rounding). -/
def pyRoundHalfEven (y : ℚ) : ℤ :=
  let f := ⌊y⌋
  let frac := y - (f : ℚ)
  if frac < 1 / 2 then f
  else if (1 : ℚ) / 2 < frac then f + 1
  else if f % 2 = 0 then f else f + 1

/-- `round(x, 2)`: round to two decimal places, half to even. -/
def pyRound2 (x : ℚ) : ℚ :=
  (pyRoundHalfEven (100 * x) : ℚ) / 100

/-- The finding dict appended for a low-usage (resource, metric) pair:
`average_usage` is the reading rounded to two decimals. -/
def mkFinding (r : AzureResource) (mc : MetricConfig) (u : ℚ) : LowUsageFinding :=
  { service := serviceShortName r.type
    resource_id := r.id
    resource_name := r.name
    resource_region := r.location
    metric := mc.metric
    average_usage := pyRound2 u
    threshold := mc.threshold
    unit := mc.unit
    stat_type := mc.stat }

/-- A metric-fetch oracle standing for `get_metric_statistics` applied to
the monitor client: maps (resource id, metric name, statistic) to an
optional scalar reading; `Option.none` is "no reading" (also the value any
request failure degrades to). -/
def FetchOracle : Type := String → String → String → Option ℚ

/-- The inner metric loop of `get_comprehensive_low_usage_resources` for
one resource: at most `MAX_METRICS_PER_RESOURCE` specs in table order; a
finding is appended exactly when a reading exists and is strictly below
the spec's threshold. -/
def classifyResource (fetch : FetchOracle) (r : AzureResource) : List LowUsageFinding :=
  ((get_primary_metrics_for_service r.type).take MAX_METRICS_PER_RESOURCE).filterMap
    (fun mc =>
      match fetch r.id mc.metric mc.stat with
      | Option.none => Option.none
      | Option.some u =>
          if u < mc.threshold then Option.some (mkFinding r mc u) else Option.none)

/-- `get_comprehensive_low_usage_resources` over an already-discovered
resource list (resource discovery is the external enumeration
collaborator). -/
def get_comprehensive_low_usage_resources (fetch : FetchOracle)
    (resources : List AzureResource) : List LowUsageFinding :=
  resources.flatMap (classifyResource fetch)

/-- One time series of a metric response: `timeseries[i].data` with each
data point's `value` possibly null. -/
structure TimeSeriesElement where
  data : List (Option ℚ)
deriving DecidableEq

/-- One metric of a metric response (`metrics_data.value[i]`). -/
structure AzMetric where
  timeseries : List TimeSeriesElement
deriving DecidableEq

/-- A metric response (`metrics_data` with its `value` list). -/
structure MetricsData where
  value : List AzMetric
deriving DecidableEq

/-- The client-side reduction inside `get_metric_statistics`: `values` is
the null-filtered sample list; an empty list or an unknown aggregation
name falls through to `return None`. -/
def reduceValues (aggregation : String) (values : List ℚ) : Option ℚ :=
  match values with
  | [] => Option.none
  | v :: vs =>
      if aggregation = "Average" then
        Option.some ((v :: vs).sum / ((v :: vs).length : ℚ))
      else if aggregation = "Sum" then Option.some (v :: vs).sum
      else if aggregation = "Maximum" then Option.some (vs.foldl max v)
      else if aggregation = "Minimum" then Option.some (vs.foldl min v)
      else Option.none

/-- `get_metric_statistics`: the monitor request is abstracted as its
outcome `resp` (`Except.error` = the request raised, caught by the
`except` which returns `None`).  The code inspects `value[0].timeseries[0]`,
filters out null data points and reduces with the requested statistic. -/
def get_metric_statistics (aggregation : String) (resp : Except Unit MetricsData) :
    Option ℚ :=
  match resp with
  | .error _ => Option.none
  | .ok metrics_data =>
      match metrics_data.value with
      | [] => Option.none
      | metric :: _ =>
          match metric.timeseries with
          | [] => Option.none
          | timeseries :: _ =>
              match timeseries.data with
              | [] => Option.none
              | _ :: _ => reduceValues aggregation (timeseries.data.filterMap id)

/-- The sample series `get_metric_statistics` inspects:
`value[0].timeseries[0].data`, empty when any level is missing. -/
def seriesData (resp : Except Unit MetricsData) : List (Option ℚ) :=
  match resp with
  | .error _ => []
  | .ok metrics_data =>
      match metrics_data.value with
      | [] => []
      | metric :: _ =>
          match metric.timeseries with
          | [] => []
          | timeseries :: _ => timeseries.data

/-- The non-null samples of the inspected series. -/
def nonNullSamples (resp : Except Unit MetricsData) : List ℚ :=
  (seriesData resp).filterMap id

/-- A Python `datetime.date` value. -/
structure PyDate where
  year : Nat
  month : Nat
  day : Nat
deriving DecidableEq

/-- The leap-year test written in `main`:
`(year % 4 == 0 and year % 100 != 0) or (year % 400 == 0)`. -/
def isLeapYear (y : Nat) : Bool :=
  (y % 4 = 0 && y % 100 != 0) || y % 400 = 0

/-- The previous-month window computation in `main`: for January the
window is December of the prior year; otherwise day 1 of the previous
month through its last day, with the 31/30/February split and the leap
rule for February. -/
def lastMonthWindow (today : PyDate) : PyDate × PyDate :=
  if today.month = 1 then
    (⟨today.year - 1, 12, 1⟩, ⟨today.year - 1, 12, 31⟩)
  else
    let pm := today.month - 1
    let last_day : Nat :=
      if pm = 1 || pm = 3 || pm = 5 || pm = 7 || pm = 8 || pm = 10 || pm = 12 then 31
      else if pm = 4 || pm = 6 || pm = 9 || pm = 11 then 30
      else if isLeapYear today.year then 29 else 28
    (⟨today.year, pm, 1⟩, ⟨today.year, pm, last_day⟩)

/-- Reference definition: the true number of days of month `m` of year `y`
under the Gregorian calendar. -/
def daysInMonth (y m : Nat) : Nat :=
  if m = 2 then (if isLeapYear y then 29 else 28)
  else if m = 4 || m = 6 || m = 9 || m = 11 then 30
  else 31

/-- Python `a or b` on strings (used by the dict-key fallback chains of
the insert helpers). -/
def pyOrStr (a b : String) : String := if a.isEmpty then b else a

/-- `row.get('date') or row.get('date_period')` followed by the
`if not date_str: continue` truthiness test: the records built by
`process_cost_response` only carry `date`, and an empty or missing date
is falsy. -/
def truthyDate : Option String → Option String
  | Option.some s => if s.isEmpty then Option.none else Option.some s
  | Option.none => Option.none

/-- A row of the `azure_service_costs` table. -/
structure ServiceCostRec where
  date_period : String
  service_name : String
  cost_amount : ℚ
  month_label : String
deriving DecidableEq

/-- The record `insert_service_costs` builds from one normalized cost row:
`(date_str, dimension or service_name, cost, label)`; rows without a
truthy date are skipped. -/
def serviceRecOf (month_label : String) (row : CostRow) : Option ServiceCostRec :=
  match truthyDate row.date with
  | Option.none => Option.none
  | Option.some ds =>
      match row with
      | .single _ dim c => Option.some ⟨ds, pyOrStr dim "", c, month_label⟩
      | .double _ _ sv c => Option.some ⟨ds, sv, c, month_label⟩

/-- Business key of `azure_service_costs`:
`ON CONFLICT (date_period, service_name, month_label)`. -/
def serviceKeyEq (a b : ServiceCostRec) : Bool :=
  a.date_period = b.date_period && a.service_name = b.service_name &&
    a.month_label = b.month_label

/-- One `INSERT ... ON CONFLICT (...) DO NOTHING` statement against the
service-costs table: append the row unless its business key is present. -/
def insertServiceRecord (tbl : List ServiceCostRec) (r : ServiceCostRec) :
    List ServiceCostRec :=
  if tbl.any (serviceKeyEq r) then tbl else tbl ++ [r]

/-- `insert_service_costs`: build the records (skipping falsy dates) and
run the conflict-ignoring insert for each, in order. -/
def insert_service_costs (tbl : List ServiceCostRec) (rows : List CostRow)
    (month_label : String) : List ServiceCostRec :=
  (rows.filterMap (serviceRecOf month_label)).foldl insertServiceRecord tbl

/-- A row of the `azure_low_usage_resources` table. -/
structure LowUsageRec where
  run_date : PyDate
  service_name : String
  resource_id : String
  resource_name : String
  resource_region : String
  metric_name : String
  average_usage : ℚ
  threshold_value : ℚ
  unit : String
  stat_type : String
deriving DecidableEq

/-- The record `insert_low_usage_resources` builds from one finding. -/
def lowUsageRecOf (run_date : PyDate) (f : LowUsageFinding) : LowUsageRec :=
  { run_date := run_date
    service_name := f.service
    resource_id := f.resource_id
    resource_name := f.resource_name
    resource_region := f.resource_region
    metric_name := f.metric
    average_usage := f.average_usage
    threshold_value := f.threshold
    unit := f.unit
    stat_type := f.stat_type }

/-- `insert_low_usage_resources`: its `INSERT` statement carries no
`ON CONFLICT` clause, so every record is appended unconditionally. -/
def insert_low_usage_resources (tbl : List LowUsageRec)
    (findings : List LowUsageFinding) (run_date : PyDate) : List LowUsageRec :=
  tbl ++ findings.map (lowUsageRecOf run_date)

/-- The exceptions the postgres phase of `main` catches:
`PostgreSQLConnectionError`, `PostgreSQLDataError` and any other
exception. -/
inductive PgError where
  | connectionError (msg : String)
  | dataError (msg : String)
  | unexpected (msg : String)
deriving DecidableEq

/-- `str(e)` for a caught postgres exception. -/
def PgError.msg : PgError → String
  | .connectionError m => m
  | .dataError m => m
  | .unexpected m => m

/-- The external inputs of one invocation of `main`: configuration, the
clock, the six cost-query responses, the discovered resources, the metric
oracle and the outcome of the whole postgres phase (abstracting the
database). -/
structure RunEnv where
  subscription_id : Option String
  today : PyDate
  svcResp : Option (List (List PyVal))
  regResp : Option (List (List PyVal))
  regSvcResp : Option (List (List PyVal))
  lastSvcResp : Option (List (List PyVal))
  lastRegResp : Option (List (List PyVal))
  lastRegSvcResp : Option (List (List PyVal))
  resources : List AzureResource
  fetch : FetchOracle
  enable_postgres : Bool
  persistOutcome : Except PgError String

/-- The state `main` holds when it reaches its summary log: the computed
windows, the six normalized row sets, the findings, the totals and the
`postgres_results` status dict. -/
structure RunResult where
  start_date : PyDate
  end_date : PyDate
  last_month_start : PyDate
  last_month_end : PyDate
  cost_rows_service : List CostRow
  cost_rows_region : List CostRow
  cost_rows_region_service : List CostRow
  last_rows_service : List CostRow
  last_rows_region : List CostRow
  last_rows_region_service : List CostRow
  low_usage_resources : List LowUsageFinding
  current_total_cost : ℚ
  last_total_cost : ℚ
  postgres_status : Option String
  postgres_error : Option String

/-- `main` up to its summary: configuration is validated first (a missing
subscription id raises after the best-effort failure write), the windows
and analytics are computed, and the postgres phase's `try`/`except` turns
any `persistOutcome` error into `postgres_results = failed` without
touching the analytics and without raising. -/
def mainRun (env : RunEnv) : Except String RunResult :=
  match env.subscription_id with
  | Option.none => .error "AZURE_SUBSCRIPTION_ID environment variable is required"
  | Option.some _ =>
      let today := env.today
      let start_date : PyDate := ⟨today.year, today.month, 1⟩
      let window := lastMonthWindow today
      let rows_service := process_cost_response env.svcResp
      let rows_region := process_cost_response env.regResp
      let rows_region_service := process_cost_response env.regSvcResp
      let last_rows_service := process_cost_response env.lastSvcResp
      let last_rows_region := process_cost_response env.lastRegResp
      let last_rows_region_service := process_cost_response env.lastRegSvcResp
      let low_usage := get_comprehensive_low_usage_resources env.fetch env.resources
      let current_total := (rows_service.map CostRow.cost).sum
      let last_total := (last_rows_service.map CostRow.cost).sum
      let pg : Option String × Option String :=
        if env.enable_postgres then
          match env.persistOutcome with
          | .ok _ => (Option.some "success", Option.none)
          | .error e => (Option.some "failed", Option.some e.msg)
        else (Option.none, Option.none)
      .ok
        { start_date := start_date
          end_date := today
          last_month_start := window.1
          last_month_end := window.2
          cost_rows_service := rows_service
          cost_rows_region := rows_region
          cost_rows_region_service := rows_region_service
          last_rows_service := last_rows_service
          last_rows_region := last_rows_region
          last_rows_region_service := last_rows_region_service
          low_usage_resources := low_usage
          current_total_cost := current_total
          last_total_cost := last_total
          postgres_status := pg.1
          postgres_error := pg.2 }

/-- Helper: the per-row shape analysis of the normalizer, for any row
whose cost conversion yields `c`. -/
theorem processRow_shape (row : List PyVal) (c : ℚ)
    (h : costOf (row.getLastD .none) = .ok c) :
    (row.length = 3 →
      processRow row = .ok (Option.some (CostRow.single (strOrNone (row.getD 0 .none))
        (strOrUnknown (row.getD 1 .none)) c))) ∧
    (row.length ≥ 4 →
      processRow row = .ok (Option.some (CostRow.double (strOrNone (row.getD 0 .none))
        (strOrUnknown (row.getD 1 .none)) (strOrUnknown (row.getD 2 .none)) c))) ∧
    (row.length < 3 → processRow row = .ok Option.none) := by
  refine ⟨?_, ?_, ?_⟩
  · intro hl
    have h3 : row.length ≥ 3 := by omega
    unfold processRow
    rw [if_pos h3, h]
    simp [hl]
  · intro hl
    have h3 : row.length ≥ 3 := by omega
    have hne : ¬ row.length = 3 := by omega
    unfold processRow
    rw [if_pos h3, h]
    simp [hne]
  · intro hl
    have h3 : ¬ row.length ≥ 3 := by omega
    unfold processRow
    rw [if_neg h3]

/-- C1: for every raw row processed by the normalizer whose cost conversion
yields `c`: a length-3 row yields a single-dimension record built from
element 1 with cost `c` (the last element); a length-`≥ 4` row yields a
two-dimension record with element 1 as region and element 2 as service;
a row of length `< 3` is dropped and produces no record. -/
theorem C1_row_shape (row : List PyVal) (c : ℚ)
    (h : costOf (row.getLastD .none) = .ok c) :
    (row.length = 3 →
      processRow row = .ok (Option.some (CostRow.single (strOrNone (row.getD 0 .none))
        (strOrUnknown (row.getD 1 .none)) c))) ∧
    (row.length ≥ 4 →
      processRow row = .ok (Option.some (CostRow.double (strOrNone (row.getD 0 .none))
        (strOrUnknown (row.getD 1 .none)) (strOrUnknown (row.getD 2 .none)) c))) ∧
    (row.length < 3 → processRow row = .ok Option.none) :=
  processRow_shape row c h

/-- Witness for C1 at a concrete length-3 row. -/
theorem C1_row_shape_witness :
    processRow [PyVal.str "2024-05-01", PyVal.str "VM", PyVal.num 5]
      = .ok (Option.some (CostRow.single (Option.some "2024-05-01") "VM" 5)) := by
  have h := (C1_row_shape [PyVal.str "2024-05-01", PyVal.str "VM", PyVal.num 5] 5
    rfl).1 rfl
  exact h.trans rfl

/-- C2 counterexample: a length-3 row whose date element is `None` is NOT
dropped by the normalizer — it is emitted as a record with `date = None`. -/
theorem C2_null_date_counterexample :
    process_cost_response (Option.some [[PyVal.none, PyVal.str "VM", PyVal.num 5]])
      = [CostRow.single Option.none "VM" 5] := by decide

/-- C2 amended: a raw row of length `≥ 3` whose date element is falsy and
whose cost converts is emitted (not dropped) with `date = None` and no
error; such a record is dropped later, at the persistence boundary, by the
falsy-date test of the insert helpers. -/
theorem C2_null_date_amended (row : List PyVal) (c : ℚ)
    (h3 : row.length ≥ 3)
    (hd : (row.getD 0 .none).truthy = false)
    (hc : costOf (row.getLastD .none) = .ok c) :
    ∃ cr, processRow row = .ok (Option.some cr) ∧ cr.date = Option.none ∧
      ∀ label, serviceRecOf label cr = Option.none := by
  have hdate : strOrNone (row.getD 0 .none) = Option.none := by
    unfold strOrNone
    rw [hd]
    simp
  by_cases hl : row.length = 3
  · refine ⟨CostRow.single Option.none (strOrUnknown (row.getD 1 .none)) c, ?_, rfl, ?_⟩
    · have h := (processRow_shape row c hc).1 hl
      rw [h, hdate]
    · intro label
      simp [serviceRecOf, truthyDate, CostRow.date]
  · have h4 : row.length ≥ 4 := by omega
    refine ⟨CostRow.double Option.none (strOrUnknown (row.getD 1 .none))
      (strOrUnknown (row.getD 2 .none)) c, ?_, rfl, ?_⟩
    · have h := (processRow_shape row c hc).2.1 h4
      rw [h, hdate]
    · intro label
      simp [serviceRecOf, truthyDate, CostRow.date]

/-- Witness for the amended C2 at a concrete null-date row. -/
theorem C2_null_date_amended_witness :
    ∃ cr, processRow [PyVal.none, PyVal.str "VM", PyVal.num 5]
        = .ok (Option.some cr) ∧ cr.date = Option.none ∧
      ∀ label, serviceRecOf label cr = Option.none :=
  C2_null_date_amended [PyVal.none, PyVal.str "VM", PyVal.num 5] 5
    (by decide) rfl rfl

/-- C3 counterexample: a row whose cost element is negative yields a record
with a negative `cost_amount` — the non-negativity invariant fails. -/
theorem C3_negative_cost_counterexample :
    (process_cost_response
        (Option.some [[PyVal.str "2024-05-01", PyVal.str "VM", PyVal.num (-5)]])
      = [CostRow.single (Option.some "2024-05-01") "VM" (-5)]) ∧ (-5 : ℚ) < 0 := by
  refine ⟨by decide, by norm_num⟩

/-- C3 amended: every emitted record's `cost_amount` is exactly the
converted value of the row's last element — negative when that element is
negative — and exactly `0` when the cost element is falsy (missing cost
coerces to `0.0`). -/
theorem C3_cost_amount_amended (row : List PyVal) (cr : CostRow)
    (h : processRow row = .ok (Option.some cr)) :
    costOf (row.getLastD .none) = .ok cr.cost ∧
    ((row.getLastD .none).truthy = false → cr.cost = 0) := by
  have hc : costOf (row.getLastD .none) = .ok cr.cost := by
    unfold processRow at h
    split at h
    · split at h
      · cases h
      · rename_i c heq
        split at h
        · injection h with h1
          injection h1 with h2
          rw [← h2]
          simpa [CostRow.cost] using heq
        · injection h with h1
          injection h1 with h2
          rw [← h2]
          simpa [CostRow.cost] using heq
    · cases h
  refine ⟨hc, ?_⟩
  intro hf
  unfold costOf at hc
  rw [hf] at hc
  simpa using hc.symm

/-- Witness for the amended C3 at a row whose cost element is falsy. -/
theorem C3_cost_amount_amended_witness :
    costOf ([PyVal.str "2024-05-01", PyVal.str "VM", PyVal.num 0].getLastD .none)
      = .ok (CostRow.single (Option.some "2024-05-01") "VM" 0).cost ∧
    (([PyVal.str "2024-05-01", PyVal.str "VM", PyVal.num 0].getLastD .none).truthy = false →
      (CostRow.single (Option.some "2024-05-01") "VM" 0).cost = 0) :=
  C3_cost_amount_amended [PyVal.str "2024-05-01", PyVal.str "VM", PyVal.num 0]
    (CostRow.single (Option.some "2024-05-01") "VM" 0) rfl

/-- Helper: a row that raises a conversion error aborts the loop — the
suffix after it is never processed. -/
theorem processRows_append_error (bad : List PyVal) (post : List (List PyVal))
    (hbad : processRow bad = .error ()) :
    ∀ (pre : List (List PyVal)) (acc : List CostRow),
      (∀ r ∈ pre, processRow r ≠ .error ()) →
      processRows (pre ++ bad :: post) acc = processRows pre acc := by
  intro pre
  induction pre with
  | nil =>
      intro acc _
      simp only [List.nil_append, processRows, hbad]
  | cons r rs ih =>
      intro acc hpre
      have hr : processRow r ≠ .error () := hpre r (by simp)
      have hrs : ∀ x ∈ rs, processRow x ≠ .error () := fun x hx => hpre x (by simp [hx])
      cases he : processRow r with
      | error e =>
          cases e
          exact absurd he hr
      | ok o =>
          cases o with
          | none =>
              simp only [List.cons_append, processRows, he]
              exact ih _ hrs
          | some cr =>
              simp only [List.cons_append, processRows, he]
              exact ih _ hrs

/-- C4 counterexample: a well-formed row AFTER a conversion-error row does
NOT appear in the output — the error aborts the batch, keeping only the
rows before it. -/
theorem C4_abort_counterexample :
    process_cost_response (Option.some [
      [PyVal.str "2024-05-01", PyVal.str "A", PyVal.num 1],
      [PyVal.str "2024-05-01", PyVal.str "B", PyVal.str "abc"],
      [PyVal.str "2024-05-01", PyVal.str "C", PyVal.num 2]])
      = [CostRow.single (Option.some "2024-05-01") "A" 1] := by decide

/-- C4 amended: the normalizer never raises, but a row causing a conversion
error stops processing: the rows before it appear in the output, the
failing row and every row after it are discarded. -/
theorem C4_abort_amended (pre post : List (List PyVal)) (bad : List PyVal)
    (hpre : ∀ r ∈ pre, processRow r ≠ .error ())
    (hbad : processRow bad = .error ()) :
    process_cost_response (Option.some (pre ++ bad :: post))
      = process_cost_response (Option.some pre) := by
  by_cases hp : pre = []
  · subst hp
    simp only [List.nil_append]
    simp [process_cost_response, processRows, hbad]
  · have h1 : (pre ++ bad :: post).isEmpty = false := by
      cases pre <;> simp_all
    have h2 : pre.isEmpty = false := by
      cases pre <;> simp_all
    unfold process_cost_response
    simp only [h1, h2, Bool.false_eq_true, if_false]
    exact processRows_append_error bad post hbad pre [] hpre

/-- Witness for the amended C4 at a concrete three-row batch. -/
theorem C4_abort_amended_witness :
    process_cost_response (Option.some ([[PyVal.str "2024-05-01", PyVal.str "A", PyVal.num 1]] ++
        [PyVal.str "2024-05-01", PyVal.str "B", PyVal.str "abc"] ::
        [[PyVal.str "2024-05-01", PyVal.str "C", PyVal.num 2]]))
      = process_cost_response (Option.some [[PyVal.str "2024-05-01", PyVal.str "A", PyVal.num 1]]) := by
  refine C4_abort_amended _ _ _ ?_ rfl
  intro r hr
  rw [List.mem_singleton] at hr
  subst hr
  intro hcontra
  cases hcontra

/-- Helper: the left fold of `max` lands in the seed-plus-list. -/
theorem foldl_max_mem (v : ℚ) (vs : List ℚ) : vs.foldl max v ∈ v :: vs := by
  induction vs generalizing v with
  | nil => simp [List.foldl]
  | cons w ws ih =>
      simp only [List.foldl_cons]
      have h := ih (max v w)
      rw [List.mem_cons] at h
      rcases h with h | h
      · rcases max_choice v w with hm | hm <;> rw [h, hm] <;> simp
      · simp [List.mem_cons, Or.inr (Or.inr h)]

/-- Helper: the left fold of `max` bounds the seed and every element. -/
theorem foldl_max_le (v : ℚ) (vs : List ℚ) : ∀ x ∈ v :: vs, x ≤ vs.foldl max v := by
  induction vs generalizing v with
  | nil =>
      intro x hx
      rw [List.mem_singleton] at hx
      simp [hx, List.foldl]
  | cons w ws ih =>
      intro x hx
      simp only [List.foldl_cons]
      rw [List.mem_cons] at hx
      rcases hx with rfl | hx
      · exact le_trans (le_max_left x w) (ih (max x w) (max x w) (List.mem_cons_self _ _))
      · rw [List.mem_cons] at hx
        rcases hx with rfl | hx
        · exact le_trans (le_max_right v x) (ih (max v x) (max v x) (List.mem_cons_self _ _))
        · exact ih (max v w) x (List.mem_cons_of_mem _ hx)

/-- Helper: the left fold of `min` lands in the seed-plus-list. -/
theorem foldl_min_mem (v : ℚ) (vs : List ℚ) : vs.foldl min v ∈ v :: vs := by
  induction vs generalizing v with
  | nil => simp [List.foldl]
  | cons w ws ih =>
      simp only [List.foldl_cons]
      have h := ih (min v w)
      rw [List.mem_cons] at h
      rcases h with h | h
      · rcases min_choice v w with hm | hm <;> rw [h, hm] <;> simp
      · simp [List.mem_cons, Or.inr (Or.inr h)]

/-- Helper: the left fold of `min` is below the seed and every element. -/
theorem foldl_min_le (v : ℚ) (vs : List ℚ) : ∀ x ∈ v :: vs, vs.foldl min v ≤ x := by
  induction vs generalizing v with
  | nil =>
      intro x hx
      rw [List.mem_singleton] at hx
      simp [hx, List.foldl]
  | cons w ws ih =>
      intro x hx
      simp only [List.foldl_cons]
      rw [List.mem_cons] at hx
      rcases hx with rfl | hx
      · exact le_trans (ih (min x w) (min x w) (List.mem_cons_self _ _)) (min_le_left x w)
      · rw [List.mem_cons] at hx
        rcases hx with rfl | hx
        · exact le_trans (ih (min v x) (min v x) (List.mem_cons_self _ _)) (min_le_right v x)
        · exact ih (min v w) x (List.mem_cons_of_mem _ hx)

/-- C5: for every metric response: a failed request yields no reading; a
series with no non-null samples yields no reading (never `0`); when
non-null samples exist, nulls are excluded and the reading is the
arithmetic mean for `Average`, the sum for `Sum` and the pointwise
extremum for `Maximum`/`Minimum`. -/
theorem C5_metric_statistics (agg : String) (resp : Except Unit MetricsData) :
    (resp = .error () → get_metric_statistics agg resp = Option.none) ∧
    (nonNullSamples resp = [] → get_metric_statistics agg resp = Option.none) ∧
    (∀ v vs, nonNullSamples resp = v :: vs →
      get_metric_statistics "Average" resp
          = Option.some ((v :: vs).sum / ((v :: vs).length : ℚ)) ∧
      get_metric_statistics "Sum" resp = Option.some (v :: vs).sum ∧
      (∃ m, get_metric_statistics "Maximum" resp = Option.some m ∧
        m ∈ v :: vs ∧ ∀ x ∈ v :: vs, x ≤ m) ∧
      (∃ m, get_metric_statistics "Minimum" resp = Option.some m ∧
        m ∈ v :: vs ∧ ∀ x ∈ v :: vs, m ≤ x)) := by
  refine ⟨?_, ?_, ?_⟩
  · rintro rfl
    rfl
  · intro h
    cases resp with
    | error e => rfl
    | ok md =>
        obtain ⟨value⟩ := md
        cases value with
        | nil => rfl
        | cons metric rest =>
            obtain ⟨ts⟩ := metric
            cases ts with
            | nil => rfl
            | cons t rest2 =>
                obtain ⟨data⟩ := t
                cases data with
                | nil => rfl
                | cons d ds =>
                    simp only [nonNullSamples, seriesData] at h
                    simp only [get_metric_statistics, h, reduceValues]
  · intro v vs h
    cases resp with
    | error e => cases h
    | ok md =>
        obtain ⟨value⟩ := md
        cases value with
        | nil => cases h
        | cons metric rest =>
            obtain ⟨ts⟩ := metric
            cases ts with
            | nil => cases h
            | cons t rest2 =>
                obtain ⟨data⟩ := t
                cases data with
                | nil => cases h
                | cons d ds =>
                    simp only [nonNullSamples, seriesData] at h
                    refine ⟨?_, ?_, ?_, ?_⟩
                    · simp [get_metric_statistics, h, reduceValues]
                    · simp [get_metric_statistics, h, reduceValues]
                    · refine ⟨vs.foldl max v, ?_, foldl_max_mem v vs, foldl_max_le v vs⟩
                      simp [get_metric_statistics, h, reduceValues]
                    · refine ⟨vs.foldl min v, ?_, foldl_min_mem v vs, foldl_min_le v vs⟩
                      simp [get_metric_statistics, h, reduceValues]

/-- Witness for C5 on a concrete series with a null sample. -/
theorem C5_metric_statistics_witness :
    get_metric_statistics "Average"
        (.ok ⟨[⟨[⟨[Option.some 1, Option.none, Option.some 3]⟩]⟩]⟩)
      = Option.some (([1, 3] : List ℚ).sum / (([1, 3] : List ℚ).length : ℚ)) := by
  have h := ((C5_metric_statistics "Average"
      (.ok ⟨[⟨[⟨[Option.some 1, Option.none, Option.some 3]⟩]⟩]⟩)).2.2
    1 [3] (by decide)).1
  exact h

/-- Helper: membership in the classifier's output for one resource is
exactly "some spec among the first `MAX_METRICS_PER_RESOURCE` has a
reading strictly below its threshold". -/
theorem classifyResource_mem (fetch : FetchOracle) (r : AzureResource)
    (f : LowUsageFinding) :
    f ∈ classifyResource fetch r ↔
      ∃ mc ∈ (get_primary_metrics_for_service r.type).take MAX_METRICS_PER_RESOURCE,
        ∃ u, fetch r.id mc.metric mc.stat = Option.some u ∧ u < mc.threshold ∧
          f = mkFinding r mc u := by
  constructor
  · intro hf
    rw [classifyResource, List.mem_filterMap] at hf
    obtain ⟨mc, hmc, heq⟩ := hf
    refine ⟨mc, hmc, ?_⟩
    split at heq
    · cases heq
    · rename_i u hu
      split at heq
      · rename_i hlt
        injection heq with heq
        exact ⟨u, hu, hlt, heq.symm⟩
      · cases heq
  · rintro ⟨mc, hmc, u, hu, hlt, rfl⟩
    rw [classifyResource, List.mem_filterMap]
    exact ⟨mc, hmc, by rw [hu]; simp [hlt]⟩

/-- C6: for one (resource, fetch oracle) pair, a finding is emitted iff a
reading was obtained for one of the first `MAX_METRICS_PER_RESOURCE`
specs (in table order) and that reading is strictly below the spec's
threshold; consequently at most `MAX_METRICS_PER_RESOURCE` findings are
emitted per resource. -/
theorem C6_classifier (fetch : FetchOracle) (r : AzureResource) :
    (∀ f ∈ classifyResource fetch r,
      ∃ mc ∈ (get_primary_metrics_for_service r.type).take MAX_METRICS_PER_RESOURCE,
        ∃ u, fetch r.id mc.metric mc.stat = Option.some u ∧ u < mc.threshold ∧
          f = mkFinding r mc u) ∧
    (∀ mc ∈ (get_primary_metrics_for_service r.type).take MAX_METRICS_PER_RESOURCE,
      ∀ u, fetch r.id mc.metric mc.stat = Option.some u → u < mc.threshold →
        mkFinding r mc u ∈ classifyResource fetch r) ∧
    (classifyResource fetch r).length ≤ MAX_METRICS_PER_RESOURCE := by
  refine ⟨?_, ?_, ?_⟩
  · intro f hf
    exact (classifyResource_mem fetch r f).1 hf
  · intro mc hmc u hu hlt
    exact (classifyResource_mem fetch r (mkFinding r mc u)).2 ⟨mc, hmc, u, hu, hlt, rfl⟩
  · calc (classifyResource fetch r).length
        ≤ ((get_primary_metrics_for_service r.type).take MAX_METRICS_PER_RESOURCE).length :=
          List.length_filterMap_le _ _
      _ ≤ MAX_METRICS_PER_RESOURCE := by
          rw [List.length_take]
          exact min_le_left _ _

/-- Witness for C6: a resource of unknown type, default specs, a reading
of 1/2 against the default Requests threshold 10 emits the finding. -/
theorem C6_classifier_witness :
    mkFinding ⟨"res-1", "mystery", "Custom.Unknown/widgets", "eastus", "rg1"⟩
        ⟨"Requests", "Sum", 10, "Count"⟩ (1 / 2)
      ∈ classifyResource
          (fun _ m _ => if m = "Requests" then Option.some (1 / 2) else Option.none)
          ⟨"res-1", "mystery", "Custom.Unknown/widgets", "eastus", "rg1"⟩ := by
  refine (C6_classifier
      (fun _ m _ => if m = "Requests" then Option.some (1 / 2) else Option.none)
      ⟨"res-1", "mystery", "Custom.Unknown/widgets", "eastus", "rg1"⟩).2.1
    ⟨"Requests", "Sum", 10, "Count"⟩ ?_ (1 / 2) ?_ ?_
  · simp [get_primary_metrics_for_service, MAX_METRICS_PER_RESOURCE]
  · simp
  · norm_num

/-- C7: the previous-month window is the full calendar month immediately
preceding the input date: the three documented examples hold, and in
general the window start is day 1 of the prior month and the window end
is that month's true last day under the Gregorian leap rule. -/
theorem C7_prev_month_window (today : PyDate)
    (h1 : 1 ≤ today.month) (h12 : today.month ≤ 12) :
    lastMonthWindow ⟨2024, 1, 15⟩ = (⟨2023, 12, 1⟩, ⟨2023, 12, 31⟩) ∧
    lastMonthWindow ⟨2024, 3, 10⟩ = (⟨2024, 2, 1⟩, ⟨2024, 2, 29⟩) ∧
    lastMonthWindow ⟨2023, 3, 10⟩ = (⟨2023, 2, 1⟩, ⟨2023, 2, 28⟩) ∧
    lastMonthWindow today =
      (⟨(if today.month = 1 then today.year - 1 else today.year),
        (if today.month = 1 then 12 else today.month - 1), 1⟩,
       ⟨(if today.month = 1 then today.year - 1 else today.year),
        (if today.month = 1 then 12 else today.month - 1),
        daysInMonth (if today.month = 1 then today.year - 1 else today.year)
          (if today.month = 1 then 12 else today.month - 1)⟩) := by
  refine ⟨by decide, by decide, by decide, ?_⟩
  obtain ⟨y, m, d⟩ := today
  simp only at h1 h12 ⊢
  interval_cases m <;> simp [lastMonthWindow, daysInMonth]

/-- Witness for C7 at the leap-year example date. -/
theorem C7_prev_month_window_witness :
    lastMonthWindow ⟨2024, 3, 10⟩ = (⟨2024, 2, 1⟩, ⟨2024, 2, 29⟩) :=
  (C7_prev_month_window ⟨2024, 3, 10⟩ (by decide) (by decide)).2.1

/-- Helper: the conflict key relation is reflexive. -/
theorem serviceKeyEq_self (r : ServiceCostRec) : serviceKeyEq r r = true := by
  simp [serviceKeyEq]

/-- Helper: after one conflict-ignoring insert of `r`, the table holds a
row with the key of `r`. -/
theorem hasKey_insertServiceRecord_self (tbl : List ServiceCostRec)
    (r : ServiceCostRec) :
    (insertServiceRecord tbl r).any (serviceKeyEq r) = true := by
  unfold insertServiceRecord
  split
  · assumption
  · rw [List.any_append]
    simp [serviceKeyEq_self]

/-- Helper: a conflict-ignoring insert keeps every key already present. -/
theorem any_insertServiceRecord_mono (tbl : List ServiceCostRec)
    (r : ServiceCostRec) (p : ServiceCostRec → Bool) (h : tbl.any p = true) :
    (insertServiceRecord tbl r).any p = true := by
  unfold insertServiceRecord
  split
  · exact h
  · rw [List.any_append, h, Bool.true_or]

/-- Helper: a batch of conflict-ignoring inserts keeps every key already
present. -/
theorem any_foldl_insertServiceRecord_mono (recs : List ServiceCostRec)
    (tbl : List ServiceCostRec) (p : ServiceCostRec → Bool) (h : tbl.any p = true) :
    (recs.foldl insertServiceRecord tbl).any p = true := by
  induction recs generalizing tbl with
  | nil => exact h
  | cons r rs ih => exact ih _ (any_insertServiceRecord_mono tbl r p h)

/-- Helper: after a batch insert, every inserted record's key is present. -/
theorem hasKey_foldl_insertServiceRecord (recs : List ServiceCostRec)
    (tbl : List ServiceCostRec) (r : ServiceCostRec) (hr : r ∈ recs) :
    (recs.foldl insertServiceRecord tbl).any (serviceKeyEq r) = true := by
  induction recs generalizing tbl with
  | nil => cases hr
  | cons s rs ih =>
      rw [List.mem_cons] at hr
      rcases hr with rfl | hr
      · exact any_foldl_insertServiceRecord_mono rs _ _
          (hasKey_insertServiceRecord_self tbl r)
      · exact ih _ hr

/-- Helper: a batch insert whose every record's key is already present is
the identity. -/
theorem foldl_insertServiceRecord_noop (recs : List ServiceCostRec)
    (tbl : List ServiceCostRec)
    (h : ∀ r ∈ recs, tbl.any (serviceKeyEq r) = true) :
    recs.foldl insertServiceRecord tbl = tbl := by
  induction recs generalizing tbl with
  | nil => rfl
  | cons r rs ih =>
      have h1 : insertServiceRecord tbl r = tbl := by
        unfold insertServiceRecord
        rw [if_pos (h r (by simp))]
      rw [List.foldl_cons, h1]
      exact ih tbl (fun s hs => h s (List.mem_cons_of_mem _ hs))

/-- C8 counterexample: the low-usage-findings insert has no
`ON CONFLICT` clause — running the same insert twice duplicates the row. -/
theorem C8_low_usage_duplicate_counterexample :
    insert_low_usage_resources
        (insert_low_usage_resources []
          [⟨"sites", "res-9", "app-9", "eastus", "HttpRequests", 1, 100, "Count", "Sum"⟩]
          ⟨2024, 5, 15⟩)
        [⟨"sites", "res-9", "app-9", "eastus", "HttpRequests", 1, 100, "Count", "Sum"⟩]
        ⟨2024, 5, 15⟩
      = [lowUsageRecOf ⟨2024, 5, 15⟩
          ⟨"sites", "res-9", "app-9", "eastus", "HttpRequests", 1, 100, "Count", "Sum"⟩,
         lowUsageRecOf ⟨2024, 5, 15⟩
          ⟨"sites", "res-9", "app-9", "eastus", "HttpRequests", 1, 100, "Count", "Sum"⟩] :=
  rfl

/-- C8 amended: the cost-row inserts are idempotent under re-run through
their `ON CONFLICT ... DO NOTHING` business key (shown for the
service-costs insert), but the low-usage-findings insert is a plain
`INSERT` that appends its records again on every re-run. -/
theorem C8_insert_rerun_amended (tbl : List ServiceCostRec) (rows : List CostRow)
    (label : String) (tbl2 : List LowUsageRec) (fs : List LowUsageFinding)
    (d : PyDate) :
    insert_service_costs (insert_service_costs tbl rows label) rows label
      = insert_service_costs tbl rows label ∧
    (insert_low_usage_resources (insert_low_usage_resources tbl2 fs d) fs d).length
      = tbl2.length + 2 * fs.length := by
  constructor
  · unfold insert_service_costs
    apply foldl_insertServiceRecord_noop
    intro r hr
    exact hasKey_foldl_insertServiceRecord _ tbl r hr
  · unfold insert_low_usage_resources
    simp [List.length_append, List.length_map]
    ring

/-- C9: when the postgres phase fails with any caught error, `main` still
returns normally with `postgres_results = failed` carrying the error
message, and the analytics computed before the persistence attempt (the
normalized row sets, the findings, the totals) are retained unchanged in
the run's state. -/
theorem C9_persistence_isolated (env : RunEnv) (e : PgError) (sid : String)
    (hs : env.subscription_id = Option.some sid)
    (hp : env.enable_postgres = true)
    (he : env.persistOutcome = .error e) :
    ∃ r, mainRun env = .ok r ∧
      r.postgres_status = Option.some "failed" ∧
      r.postgres_error = Option.some e.msg ∧
      r.cost_rows_service = process_cost_response env.svcResp ∧
      r.cost_rows_region = process_cost_response env.regResp ∧
      r.cost_rows_region_service = process_cost_response env.regSvcResp ∧
      r.last_rows_service = process_cost_response env.lastSvcResp ∧
      r.low_usage_resources
        = get_comprehensive_low_usage_resources env.fetch env.resources ∧
      r.current_total_cost
        = ((process_cost_response env.svcResp).map CostRow.cost).sum ∧
      r.last_total_cost
        = ((process_cost_response env.lastSvcResp).map CostRow.cost).sum := by
  have hmain : mainRun env = .ok
      { start_date := ⟨env.today.year, env.today.month, 1⟩
        end_date := env.today
        last_month_start := (lastMonthWindow env.today).1
        last_month_end := (lastMonthWindow env.today).2
        cost_rows_service := process_cost_response env.svcResp
        cost_rows_region := process_cost_response env.regResp
        cost_rows_region_service := process_cost_response env.regSvcResp
        last_rows_service := process_cost_response env.lastSvcResp
        last_rows_region := process_cost_response env.lastRegResp
        last_rows_region_service := process_cost_response env.lastRegSvcResp
        low_usage_resources
          := get_comprehensive_low_usage_resources env.fetch env.resources
        current_total_cost
          := ((process_cost_response env.svcResp).map CostRow.cost).sum
        last_total_cost
          := ((process_cost_response env.lastSvcResp).map CostRow.cost).sum
        postgres_status := Option.some "failed"
        postgres_error := Option.some e.msg } := by
    unfold mainRun
    rw [hs]
    simp only [hp, he, if_true]
  exact ⟨_, hmain, rfl, rfl, rfl, rfl, rfl, rfl, rfl, rfl, rfl⟩

/-- Witness for C9 at a concrete failing environment. -/
theorem C9_persistence_isolated_witness :
    ∃ r, mainRun ⟨Option.some "sub-1", ⟨2024, 5, 15⟩, Option.none, Option.none,
        Option.none, Option.none, Option.none, Option.none, [],
        (fun _ _ _ => Option.none), true, .error (.connectionError "conn failed")⟩
      = .ok r ∧
      r.postgres_status = Option.some "failed" ∧
      r.postgres_error = Option.some (PgError.connectionError "conn failed").msg ∧
      r.cost_rows_service = process_cost_response Option.none ∧
      r.cost_rows_region = process_cost_response Option.none ∧
      r.cost_rows_region_service = process_cost_response Option.none ∧
      r.last_rows_service = process_cost_response Option.none ∧
      r.low_usage_resources
        = get_comprehensive_low_usage_resources (fun _ _ _ => Option.none) [] ∧
      r.current_total_cost
        = ((process_cost_response Option.none).map CostRow.cost).sum ∧
      r.last_total_cost
        = ((process_cost_response Option.none).map CostRow.cost).sum :=
  C9_persistence_isolated _ _ "sub-1" rfl rfl rfl

/-- Helper: `round(9.999, 2)` is exactly `10`. -/
theorem pyRound2_9999 : pyRound2 (9999 / 1000) = 10 := by
  have h100 : (100 : ℚ) * (9999 / 1000) = 9999 / 10 := by norm_num
  have hfl : ⌊(9999 / 10 : ℚ)⌋ = 999 := by
    rw [Int.floor_eq_iff]
    norm_num
  have hr : pyRoundHalfEven (9999 / 10) = 1000 := by
    unfold pyRoundHalfEven
    rw [hfl]
    norm_num
  unfold pyRound2
  rw [h100, hr]
  norm_num

/-- C10: every emitted finding records `average_usage` as the fetched
reading rounded to two decimals, while emission itself is decided by the
unrounded reading; concretely, a VM CPU reading of `9.999` against
threshold `10` is emitted (since `9.999 < 10`) yet its recorded
`average_usage` is `10`, equal to the threshold. -/
theorem C10_rounded_usage (fetch : FetchOracle) (r : AzureResource) :
    (∀ f ∈ classifyResource fetch r,
      ∃ mc ∈ (get_primary_metrics_for_service r.type).take MAX_METRICS_PER_RESOURCE,
        ∃ u, fetch r.id mc.metric mc.stat = Option.some u ∧ u < mc.threshold ∧
          f.average_usage = pyRound2 u ∧ f.threshold = mc.threshold) ∧
    ((9999 / 1000 : ℚ) < 10 ∧
      ∃ f ∈ classifyResource (fun _ _ _ => Option.some (9999 / 1000))
          ⟨"vm-id", "vm1", "Microsoft.Compute/virtualMachines", "eastus", "rg1"⟩,
        f.threshold = 10 ∧ f.average_usage = 10) := by
  constructor
  · intro f hf
    obtain ⟨mc, hmc, u, hu, hlt, hfeq⟩ := (classifyResource_mem fetch r f).1 hf
    refine ⟨mc, hmc, u, hu, hlt, ?_, ?_⟩
    · rw [hfeq]
      rfl
    · rw [hfeq]
      rfl
  · refine ⟨by norm_num, ?_⟩
    refine ⟨mkFinding ⟨"vm-id", "vm1", "Microsoft.Compute/virtualMachines", "eastus", "rg1"⟩
      ⟨"Percentage CPU", "Average", 10, "Percent"⟩ (9999 / 1000), ?_, rfl, ?_⟩
    · refine (classifyResource_mem _ _ _).2
        ⟨⟨"Percentage CPU", "Average", 10, "Percent"⟩, ?_, 9999 / 1000, rfl, by norm_num, rfl⟩
      simp [get_primary_metrics_for_service, MAX_METRICS_PER_RESOURCE]
    · exact pyRound2_9999

/-- Witness for C10's universally quantified part at a concrete oracle. -/
theorem C10_rounded_usage_witness :
    ∃ mc ∈ (get_primary_metrics_for_service
        "Microsoft.Compute/virtualMachines").take MAX_METRICS_PER_RESOURCE,
      ∃ u, (fun _ _ _ => Option.some (9999 / 1000) : FetchOracle) "vm-id" mc.metric mc.stat
          = Option.some u ∧ u < mc.threshold ∧
        (mkFinding ⟨"vm-id", "vm1", "Microsoft.Compute/virtualMachines", "eastus", "rg1"⟩
          ⟨"Percentage CPU", "Average", 10, "Percent"⟩ (9999 / 1000)).average_usage
          = pyRound2 u ∧
        (mkFinding ⟨"vm-id", "vm1", "Microsoft.Compute/virtualMachines", "eastus", "rg1"⟩
          ⟨"Percentage CPU", "Average", 10, "Percent"⟩ (9999 / 1000)).threshold
          = mc.threshold := by
  refine (C10_rounded_usage (fun _ _ _ => Option.some (9999 / 1000))
      ⟨"vm-id", "vm1", "Microsoft.Compute/virtualMachines", "eastus", "rg1"⟩).1
    (mkFinding ⟨"vm-id", "vm1", "Microsoft.Compute/virtualMachines", "eastus", "rg1"⟩
      ⟨"Percentage CPU", "Average", 10, "Percent"⟩ (9999 / 1000)) ?_
  refine (classifyResource_mem _ _ _).2
    ⟨⟨"Percentage CPU", "Average", 10, "Percent"⟩, ?_, 9999 / 1000, rfl, by norm_num, rfl⟩
  simp [get_primary_metrics_for_service, MAX_METRICS_PER_RESOURCE]
